import Mathlib

/-!
# Verification of the grafoWitchTrials graph-construction and analytics core

Shallow embedding of the repository's core (`src/core/graph_builder.py`,
`src/core/analysis.py`, `src/core/visualization.py`,
`src/core/graph_analysis.py`).  The networkx `DiGraph` is modelled as a pair
of insertion-ordered association lists (node key ↦ attribute record, edge key
↦ accumulator record), matching Python dict semantics (`add_node` updates
attributes in place, `add_edge`/`+=` upserts).  Python/numpy numeric results
that can be `nan`/`inf` are modelled by `PyFloat`; exact rates use `Rat`.
Latitude/longitude payloads are carried opaquely as `Rat` (they are only
stored and compared, never computed with).
-/

namespace WitchTrials

/-! ## Definitions -/

/-- A Python/numpy floating result: either an exact value or one of the
IEEE special values that numpy division can produce. -/
inductive PyFloat where
  | val : Rat → PyFloat
  | nan : PyFloat
  | inf : PyFloat
  | ninf : PyFloat
deriving DecidableEq, Repr

/-- numpy true division of two integer scalars (`np.int64 / np.int64`):
never raises `ZeroDivisionError`; a zero denominator yields `inf`/`-inf`/`nan`
(with a runtime warning) instead. -/
def npDivInt (a b : Int) : PyFloat :=
  if b ≠ 0 then .val ((a : Rat) / (b : Rat))
  else if 0 < a then .inf
  else if a < 0 then .ninf
  else .nan

/-- One normalized dataframe row as the Graph Builder consumes it
(after `preprocessing.preprocessar`): `gadm_adm0` is `none` when the country
cell is NaN (`pd.isna`), `lat`/`lon` are `none` when those cells are NaN. -/
structure Record where
  gadm_adm0 : Option String
  localizacao : String
  decade : String
  tried : Int
  deaths : Int
  lat : Option Rat
  lon : Option Rat
deriving DecidableEq, Repr

/-- The attribute dictionary of a networkx node in this program.  The builder
writes `tipo` on every `add_node`; `lat`/`lon`/`pais` keys are written only by
the location-node call, so their presence is itself optional (outer `Option`),
and a present `lat`/`lon` can hold Python `None` (inner `Option`). -/
structure NodeData where
  tipo : String
  lat : Option (Option Rat)
  lon : Option (Option Rat)
  pais : Option String
deriving DecidableEq, Repr

/-- The attribute dictionary of an edge: `weight` (trials) and `mortes`. -/
structure EdgeData where
  weight : Int
  mortes : Int
deriving DecidableEq, Repr

/-- The networkx `DiGraph`: insertion-ordered association lists for the node
and edge dictionaries (Python dicts preserve insertion order). -/
structure Graph where
  nodes : List (String × NodeData)
  edges : List ((String × String) × EdgeData)
deriving DecidableEq, Repr

/-- Dictionary lookup on an association list. -/
def alookup {α β : Type} [DecidableEq α] : List (α × β) → α → Option β
  | [], _ => none
  | (k', v) :: t, k => if k = k' then some v else alookup t k

/-- Dictionary upsert: replace the value at `k` in place (Python dicts keep
the key's original position), or append a fresh entry at the end. -/
def aupd {α β : Type} [DecidableEq α] : List (α × β) → α → (Option β → β) → List (α × β)
  | [], k, f => [(k, f none)]
  | (k', v) :: t, k, f => if k = k' then (k', f (some v)) :: t else (k', v) :: aupd t k f

/-- `G.add_node(origem, tipo='local', lat=…, lon=…, pais=…)`: networkx
`add_node` on an existing node updates its attribute dict, so every listed
attribute is overwritten (last write wins). -/
def addLocalNode (G : Graph) (k : String) (lat lon : Option Rat) (pais : String) : Graph :=
  { G with nodes := aupd G.nodes k (fun _ => ⟨"local", some lat, some lon, some pais⟩) }

/-- `G.add_node(decada, tipo='decada')`: only the `tipo` key is written;
attributes already on the node are kept. -/
def addDecadaNode (G : Graph) (k : String) : Graph :=
  { G with nodes := aupd G.nodes k (fun o =>
      match o with
      | none => ⟨"decada", none, none, none⟩
      | some d => { d with tipo := "decada" }) }

/-- The edge upsert of `construir_grafo`: `+=` on an existing edge's
`weight`/`mortes`, else `add_edge` with the record's counts. -/
def upsertEdge (G : Graph) (a b : String) (w m : Int) : Graph :=
  { G with edges := aupd G.edges (a, b) (fun o =>
      match o with
      | none => ⟨w, m⟩
      | some e => ⟨e.weight + w, e.mortes + m⟩) }

/-- One iteration of the row loop of `construir_grafo`: skip when
`pd.isna(row['gadm_adm0'])` or the country is the empty string, otherwise add
the location node, the decade node, and upsert the edge. -/
def insertRecord (G : Graph) (r : Record) : Graph :=
  match r.gadm_adm0 with
  | none => G
  | some p =>
      if p = "" then G
      else
        upsertEdge
          (addDecadaNode (addLocalNode G r.localizacao r.lat r.lon p) r.decade)
          r.localizacao r.decade r.tried r.deaths

/-- `graph_builder.construir_grafo`: fold the row loop over the dataframe,
starting from the empty `DiGraph`. -/
def construir_grafo (rs : List Record) : Graph :=
  rs.foldl insertRecord ⟨[], []⟩

/-- A record passes the country filter (is not skipped by the builder). -/
def contributes (r : Record) : Bool :=
  match r.gadm_adm0 with
  | none => false
  | some p => !(p == "")

/-- A record maps to the ordered edge pair `(a, b)`. -/
def contribTo (r : Record) (a b : String) : Bool :=
  contributes r && r.localizacao == a && r.decade == b

/-- Sum of `tried` over exactly the records mapping to the pair `(a, b)`. -/
def edgeTrials (rs : List Record) (a b : String) : Int :=
  ((rs.filter fun r => contribTo r a b).map Record.tried).sum

/-- Sum of `deaths` over exactly the records mapping to the pair `(a, b)`. -/
def edgeDeaths (rs : List Record) (a b : String) : Int :=
  ((rs.filter fun r => contribTo r a b).map Record.deaths).sum

/-- The record is not skipped and writes the location node `a`. -/
def localTouch (r : Record) (a : String) : Bool :=
  contributes r && r.localizacao == a

/-- The record is not skipped and writes the decade node `a`. -/
def decadaTouch (r : Record) (a : String) : Bool :=
  contributes r && r.decade == a

/-- The record is not skipped and writes node `k` (as location or decade). -/
def touchesNode (r : Record) (k : String) : Bool :=
  contributes r && (r.localizacao == k || r.decade == k)

/-- The attribute dict the builder writes for a record's location node. -/
def recordLocalData (r : Record) : NodeData :=
  ⟨"local", some r.lat, some r.lon, some (r.gadm_adm0.getD "")⟩

/-- The attribute dict of a decade node that was never written as a location. -/
def decadaFresh : NodeData := ⟨"decada", none, none, none⟩

/-- The node-attribute schema every downstream function reads unguarded. -/
def NodeSchema (d : NodeData) : Prop :=
  (d.tipo = "local" ∨ d.tipo = "decada") ∧
    (d.tipo = "local" → d.lat.isSome ∧ d.lon.isSome ∧ d.pais.isSome)

/-- Spec §8 example, first record: city X, country N, decade 1600, 5 tried,
2 deaths (location key "X, N" after normalization). -/
def rX1 : Record := ⟨some "N", "X, N", "1600", 5, 2, none, none⟩

/-- Spec §8 example, second record: same location and decade, 3 tried, 1 death. -/
def rX2 : Record := ⟨some "N", "X, N", "1600", 3, 1, none, none⟩

/-- Same location key as `rLat2` but different coordinates. -/
def rLat1 : Record := ⟨some "N", "X, N", "1600", 5, 2, some 1, some 10⟩

/-- Same location key as `rLat1` but different coordinates. -/
def rLat2 : Record := ⟨some "N", "X, N", "1600", 3, 1, some 2, some 20⟩

/-- A record with negative counts (what the spec says should raise
`DataIntegrityError`). -/
def rNeg : Record := ⟨some "N", "X, N", "1600", -5, -1, none, none⟩

/-- A record whose counts are both zero. -/
def rZero : Record := ⟨some "N", "X, N", "1600", 0, 0, none, none⟩

/-- Location keys never collide with decade labels among the kept records. -/
def labelsDisjoint (rs : List Record) : Prop :=
  ∀ r ∈ rs, ∀ r' ∈ rs, contributes r = true → contributes r' = true →
    r.localizacao ≠ r'.decade

/-- `analysis.total_julgamentos`: `df['tried'].sum()`. -/
def total_julgamentos (df : List Record) : Int :=
  (df.map Record.tried).sum

/-- `analysis.total_mortes`: `df['deaths'].sum()`. -/
def total_mortes (df : List Record) : Int :=
  (df.map Record.deaths).sum

/-- `analysis.taxa_mortalidade`: `df['deaths'].sum() / df['tried'].sum()`
inside `try/except ZeroDivisionError`.  The sums are numpy `int64` scalars,
so the division is numpy's: it never raises `ZeroDivisionError` (the `except`
branch is dead code) and a zero denominator produces `nan`/`inf` instead. -/
def taxa_mortalidade (df : List Record) : PyFloat :=
  npDivInt (total_mortes df) (total_julgamentos df)

/-- `analysis.calcular_taxas_mortalidade_geral`: on an empty dataframe prints
a message and returns `(None, None, None)` (modelled as `none`); otherwise
returns the totals and the rate. -/
def calcular_taxas_mortalidade_geral (df : List Record) : Option (Int × Int × PyFloat) :=
  if df.isEmpty then none
  else some (total_julgamentos df, total_mortes df, taxa_mortalidade df)

/-- One output row of `visualization.top_paises`. -/
structure PaisRow where
  pais : String
  julgamentos : Int
  mortes : Int
  taxa : Rat
deriving DecidableEq, Repr

/-- `sum(data.get('weight', 0) for _, _, data in G.out_edges(no, data=True))`. -/
def outTotalsW (G : Graph) (a : String) : Int :=
  ((G.edges.filter fun e => e.1.1 == a).map fun e => e.2.weight).sum

/-- `sum(data.get('mortes', 0) for _, _, data in G.out_edges(no, data=True))`. -/
def outTotalsM (G : Graph) (a : String) : Int :=
  ((G.edges.filter fun e => e.1.1 == a).map fun e => e.2.mortes).sum

/-- The node filter of `top_paises`: `tipo == 'local' and 'pais' in attrs`. -/
def isLocalWithPais (d : NodeData) : Bool :=
  d.tipo == "local" && d.pais.isSome

/-- One iteration of the aggregation loop of `top_paises`: add the node's
out-edge sums into its country's accumulator (a `defaultdict` entry). -/
def paisStep (G : Graph) (acc : List (String × (Int × Int))) (p : String × NodeData) :
    List (String × (Int × Int)) :=
  if isLocalWithPais p.2 then
    aupd acc (p.2.pais.getD "") (fun o =>
      match o with
      | none => (outTotalsW G p.1, outTotalsM G p.1)
      | some jm => (jm.1 + outTotalsW G p.1, jm.2 + outTotalsM G p.1))
  else acc

/-- The per-country accumulation dict of `top_paises`. -/
def paisAgg (G : Graph) : List (String × (Int × Int)) :=
  G.nodes.foldl (paisStep G) []

/-- Independent restatement: the summed trials of country `c`'s nodes. -/
def countrySumW (G : Graph) (c : String) : Int :=
  (((G.nodes.filter fun p => isLocalWithPais p.2 && p.2.pais.getD "" == c)).map
    fun p => outTotalsW G p.1).sum

/-- Independent restatement: the summed deaths of country `c`'s nodes. -/
def countrySumM (G : Graph) (c : String) : Int :=
  (((G.nodes.filter fun p => isLocalWithPais p.2 && p.2.pais.getD "" == c)).map
    fun p => outTotalsM G p.1).sum

/-- Some location node belongs to country `c`. -/
def countryHasNode (G : Graph) (c : String) : Bool :=
  G.nodes.any fun p => isLocalWithPais p.2 && p.2.pais.getD "" == c

/-- Descending order on trial counts (`sort_values('Julgamentos',
ascending=False)`). -/
def paisDescRel (x y : PaisRow) : Prop := y.julgamentos ≤ x.julgamentos

instance : DecidableRel paisDescRel := fun x y => Int.decLe y.julgamentos x.julgamentos

instance : IsTotal PaisRow paisDescRel := ⟨fun a b => le_total b.julgamentos a.julgamentos⟩

instance : IsTrans PaisRow paisDescRel := ⟨fun _ _ _ hab hbc => le_trans hbc hab⟩

/-- The row comprehension of `top_paises`: keep countries with positive
trials, rate `Mortes/Julgamentos if Julgamentos > 0 else 0`. -/
def paisRowsUnsorted (G : Graph) : List PaisRow :=
  (paisAgg G).filterMap fun pr =>
    if 0 < pr.2.1 then
      some ⟨pr.1, pr.2.1, pr.2.2,
            if 0 < pr.2.1 then (pr.2.2 : Rat) / (pr.2.1 : Rat) else 0⟩
    else none

/-- `visualization.top_paises` (the returned dataframe): aggregate per
country, drop zero-trial rows, sort descending by trials, truncate to `n`.
pandas `sort_values` uses an unstable sort; we model with a stable insertion
sort — every property stated about it is independent of tie order. -/
def top_paises (G : Graph) (n : Nat) : List PaisRow :=
  (List.insertionSort paisDescRel (paisRowsUnsorted G)).take n

/-- Python `str.isdigit` for the ASCII labels at hand: nonempty, all digits. -/
def isDigitString (s : String) : Bool :=
  !(s == "") && s.toList.all Char.isDigit

/-- Python `int(s)` for an all-digit string. -/
def digitsToInt (s : String) : Int :=
  ((s.toList.foldl (fun n c => 10 * n + (c.toNat - 48)) 0 : Nat) : Int)

/-- One output row of `visualization.julgamentos_por_decada`. -/
structure DecadaRow where
  decada : Int
  julgamentos : Int
  mortes : Int
  taxa : Rat
deriving DecidableEq, Repr

/-- `sum(data.get('weight', 0) for _, _, data in G.in_edges(decada, data=True))`. -/
def inTotalsW (G : Graph) (b : String) : Int :=
  ((G.edges.filter fun e => e.1.2 == b).map fun e => e.2.weight).sum

/-- `sum(data.get('mortes', 0) for _, _, data in G.in_edges(decada, data=True))`. -/
def inTotalsM (G : Graph) (b : String) : Int :=
  ((G.edges.filter fun e => e.1.2 == b).map fun e => e.2.mortes).sum

/-- The decade-node labels of the graph, in node insertion order. -/
def decadaNodes (G : Graph) : List String :=
  (G.nodes.filter fun p => p.2.tipo == "decada").map Prod.fst

/-- Ascending order by parsed numeric value (`sorted(..., key=int)`). -/
def decAscRel (x y : String) : Prop := digitsToInt x ≤ digitsToInt y

instance : DecidableRel decAscRel := fun x y => Int.decLe (digitsToInt x) (digitsToInt y)

instance : IsTotal String decAscRel := ⟨fun a b => le_total (digitsToInt a) (digitsToInt b)⟩

instance : IsTrans String decAscRel := ⟨fun _ _ _ hab hbc => le_trans hab hbc⟩

/-- The `ts_data` rows of `julgamentos_por_decada`: digit-labelled decade
nodes sorted ascending by numeric value, keeping those with positive in-edge
trials, with rate `mortes/julgamentos`. -/
def decadaRows (G : Graph) : List DecadaRow :=
  (List.insertionSort decAscRel ((decadaNodes G).filter isDigitString)).filterMap fun d =>
    if 0 < inTotalsW G d then
      some ⟨digitsToInt d, inTotalsW G d, inTotalsM G d,
            (inTotalsM G d : Rat) / (inTotalsW G d : Rat)⟩
    else none

/-- `visualization.julgamentos_por_decada`: when `ts_data` is empty,
`pd.DataFrame([]).set_index('Década')` raises `KeyError` (the empty frame has
no columns), so the function errors instead of returning an empty series. -/
def julgamentos_por_decada (G : Graph) : Except String (List DecadaRow) :=
  if (decadaRows G).isEmpty then Except.error "KeyError"
  else Except.ok (decadaRows G)

/-- The node identifiers, in insertion order. -/
def nodeKeys (G : Graph) : List String := G.nodes.map Prod.fst

/-- Number of directed walks of length exactly `k` from `s` to `t`.  A
shortest walk never repeats a node, so at the shortest-path length this is
networkx's count of shortest paths σ_st. -/
def walkCount (G : Graph) : Nat → String → String → Nat
  | 0, s, t => if s = t then 1 else 0
  | k + 1, s, t =>
      (G.edges.map fun e => if e.1.2 = t then walkCount G k s e.1.1 else 0).sum

/-- Directed shortest-path length (BFS distance): the least walk length, when
one exists within the node-count bound. -/
def distG (G : Graph) (s t : String) : Option Nat :=
  (List.range (G.nodes.length + 1)).find? fun k => walkCount G k s t != 0

/-- `nx.closeness_centrality(G)[u]` with the default `wf_improved=True`: on a
`DiGraph` networkx reverses the graph first, so `sp` holds the distances TO
`u`; `totsp` is their (integer) sum, and the value is
`(len(sp)-1)/totsp * (len(sp)-1)/(n-1)` when `totsp > 0` and `n > 1`, else
`0.0`. -/
def closeness_centrality (G : Graph) (u : String) : Rat :=
  let sp := (nodeKeys G).filterMap fun v => distG G v u
  let totsp : Nat := sp.sum
  let n := G.nodes.length
  if 0 < totsp ∧ 1 < n then
    ((sp.length - 1 : Nat) : Rat) / (totsp : Rat) *
      (((sp.length - 1 : Nat) : Rat) / ((n - 1 : Nat) : Rat))
  else 0

/-- The symmetrized adjacency used by the spec's undirected reading. -/
def undirectedKeys (G : Graph) : List (String × String) :=
  (G.edges.map fun e => e.1) ++ (G.edges.map fun e => (e.1.2, e.1.1))

/-- Walk counts over the undirected projection. -/
def walkCountU (G : Graph) : Nat → String → String → Nat
  | 0, s, t => if s = t then 1 else 0
  | k + 1, s, t =>
      ((undirectedKeys G).map fun e => if e.2 = t then walkCountU G k s e.1 else 0).sum

/-- Shortest-path length over the undirected projection. -/
def distU (G : Graph) (s t : String) : Option Nat :=
  (List.range (G.nodes.length + 1)).find? fun k => walkCountU G k s t != 0

/-- Follows the spec's words, for comparison with the code's definition:
closeness "computed over the graph treated as undirected for reachability
purposes" — the same networkx formula, but with undirected distances. -/
def closeness_centrality_spec_undirected (G : Graph) (u : String) : Rat :=
  let sp := (nodeKeys G).filterMap fun v => distU G v u
  let totsp : Nat := sp.sum
  let n := G.nodes.length
  if 0 < totsp ∧ 1 < n then
    ((sp.length - 1 : Nat) : Rat) / (totsp : Rat) *
      (((sp.length - 1 : Nat) : Rat) / ((n - 1 : Nat) : Rat))
  else 0

/-- σ_st: the number of directed shortest paths from `s` to `t`. -/
def sigmaG (G : Graph) (s t : String) : Nat :=
  match distG G s t with
  | some d => walkCount G d s t
  | none => 0

/-- σ_st(v)/σ_st: the fraction of shortest `s`→`t` paths passing through `v`
(0 when `t` is unreachable or `v` is off every shortest path). -/
def spThrough (G : Graph) (s t v : String) : Rat :=
  match distG G s v, distG G v t, distG G s t with
  | some d1, some d2, some d =>
      if d1 + d2 = d then
        (((walkCount G d1 s v * walkCount G d2 v t : Nat) : Rat)) / ((sigmaG G s t : Nat) : Rat)
      else 0
  | _, _, _ => 0

/-- `nx.betweenness_centrality(G)[v]` on the directed graph with the default
`normalized=True`: sum σ_st(v)/σ_st over ordered pairs `s ≠ t` avoiding `v`,
rescaled by `1/((n-1)(n-2))` when `n > 2` (no rescaling otherwise). -/
def betweenness_centrality (G : Graph) (v : String) : Rat :=
  let n := G.nodes.length
  let raw : Rat :=
    ((nodeKeys G).map fun s =>
      ((nodeKeys G).map fun t =>
        if s ≠ v ∧ t ≠ v ∧ s ≠ t then spThrough G s t v else 0).sum).sum
  if 2 < n then raw / (((n - 1 : Nat) : Rat) * ((n - 2 : Nat) : Rat)) else raw

/-- The Location ('local') nodes, in insertion order
(`[n for n, d in G.nodes(data=True) if d.get('tipo') == 'local']`). -/
def locais (G : Graph) : List String :=
  (G.nodes.filter fun p => p.2.tipo == "local").map Prod.fst

/-- The edges of `G.subgraph(locais)` (both endpoints Location nodes), which
`to_undirected` then projects. -/
def inducedEdges (G : Graph) : List (String × String) :=
  (G.edges.map Prod.fst).filter fun e =>
    decide (e.1 ∈ locais G) && decide (e.2 ∈ locais G)

/-- Twice-counted degree mass of a community in an undirected edge list. -/
def commDegSum (es : List (String × String)) (c : List String) : Nat :=
  (es.filter fun e => c.contains e.1).length + (es.filter fun e => c.contains e.2).length

/-- Number of intra-community edges. -/
def commIntra (es : List (String × String)) (c : List String) : Nat :=
  (es.filter fun e => c.contains e.1 && c.contains e.2).length

/-- Newman modularity of a partition over an undirected edge list. -/
def modularityQ (es : List (String × String)) (comms : List (List String)) : Rat :=
  if es.length = 0 then 0
  else
    (comms.map fun c =>
      ((commIntra es c : Nat) : Rat) / ((es.length : Nat) : Rat) -
        (((commDegSum es c : Nat) : Rat) / (2 * ((es.length : Nat) : Rat))) ^ 2).sum

/-- Merge communities `i` and `j` (into position `i`). -/
def mergeIdx (comms : List (List String)) (i j : Nat) : List (List String) :=
  comms.enum.filterMap fun p =>
    if p.1 = i then some (comms.getD i [] ++ comms.getD j [])
    else if p.1 = j then none
    else some p.2

/-- All single-merge refinements of a partition. -/
def allMerges (comms : List (List String)) : List (List (List String)) :=
  (List.range comms.length).flatMap fun i =>
    (List.range comms.length).flatMap fun j =>
      if i < j then [mergeIdx comms i j] else []

/-- The merge with the greatest (positive) modularity gain, if any. -/
def bestMerge (es : List (String × String)) (comms : List (List String)) :
    Option (List (List String)) :=
  (allMerges comms).foldl
    (fun best cand =>
      match best with
      | none => if modularityQ es comms < modularityQ es cand then some cand else none
      | some b => if modularityQ es b < modularityQ es cand then some cand else some b)
    none

/-- Clauset–Newman–Moore greedy loop: repeatedly apply the best positive-gain
merge (fuel-bounded by the community count, which each merge decreases). -/
def cnmLoop (es : List (String × String)) : Nat → List (List String) → List (List String)
  | 0, comms => comms
  | fuel + 1, comms =>
      match bestMerge es comms with
      | none => comms
      | some next => cnmLoop es fuel next

/-- `networkx.algorithms.community.greedy_modularity_communities` (modern
networkx, ≥ 2.8): an edgeless graph short-circuits to singleton communities
`[{u} for u in G.nodes]`; otherwise the CNM greedy merge loop runs. -/
def greedy_modularity_communities (ns : List String) (es : List (String × String)) :
    List (List String) :=
  if es.isEmpty then ns.map fun u => [u]
  else cnmLoop es ns.length (ns.map fun u => [u])

/-- `graph_analysis.detectar_comunidades` (default `return_communities=False`):
restrict to Location nodes, project to undirected, run greedy modularity, and
return the node → community-index mapping; an empty induced subgraph yields
the empty mapping. -/
def detectar_comunidades (G : Graph) : List (String × Nat) :=
  if (locais G).isEmpty then []
  else
    ((greedy_modularity_communities (locais G) (inducedEdges G)).enum.map fun p =>
      p.2.map fun nd => (nd, p.1)).flatten

/-- `detectar_comunidades(G, return_communities=True)`: the partition itself. -/
def detectar_comunidades_partition (G : Graph) : List (List String) :=
  if (locais G).isEmpty then []
  else greedy_modularity_communities (locais G) (inducedEdges G)

/-! ## Theorems -/

section AList

variable {α β : Type} [DecidableEq α]

theorem alookup_aupd_self (l : List (α × β)) (k : α) (f : Option β → β) :
    alookup (aupd l k f) k = some (f (alookup l k)) := by
  induction l with
  | nil => simp [aupd, alookup]
  | cons p t ih =>
      obtain ⟨k', v⟩ := p
      by_cases h : k = k'
      · simp [aupd, alookup, h]
      · simp [aupd, alookup, h, ih]

theorem alookup_aupd_ne (l : List (α × β)) (k k' : α) (f : Option β → β)
    (h : k' ≠ k) : alookup (aupd l k f) k' = alookup l k' := by
  induction l with
  | nil => simp [aupd, alookup, h]
  | cons p t ih =>
      obtain ⟨k₀, v⟩ := p
      by_cases hk : k = k₀
      · subst hk
        simp [aupd, alookup, h, ih]
      · by_cases hk' : k' = k₀ <;> simp [aupd, alookup, hk, hk', ih]

theorem alookup_eq_none_iff (l : List (α × β)) (k : α) :
    alookup l k = none ↔ k ∉ l.map Prod.fst := by
  induction l with
  | nil => simp [alookup]
  | cons p t ih =>
      obtain ⟨k', v⟩ := p
      by_cases h : k = k' <;> simp [alookup, h, ih]

theorem alookup_isSome_iff_mem (l : List (α × β)) (k : α) :
    (alookup l k).isSome ↔ k ∈ l.map Prod.fst := by
  cases heq : alookup l k with
  | none =>
      simp only [Option.isSome_none, Bool.false_eq_true, false_iff]
      exact (alookup_eq_none_iff l k).1 heq
  | some v =>
      simp only [Option.isSome_some, true_iff]
      by_contra hmem
      have hnone := (alookup_eq_none_iff l k).2 hmem
      exact Option.noConfusion (hnone.symm.trans heq)

theorem keys_aupd (l : List (α × β)) (k : α) (f : Option β → β) :
    (aupd l k f).map Prod.fst =
      if k ∈ l.map Prod.fst then l.map Prod.fst else l.map Prod.fst ++ [k] := by
  induction l with
  | nil => simp [aupd]
  | cons p t ih =>
      obtain ⟨k', v⟩ := p
      by_cases h : k = k'
      · simp [aupd, h]
      · by_cases hm : k ∈ t.map Prod.fst <;> simp [aupd, h, hm, ih]

theorem nodup_keys_aupd (l : List (α × β)) (k : α) (f : Option β → β)
    (h : (l.map Prod.fst).Nodup) : ((aupd l k f).map Prod.fst).Nodup := by
  rw [keys_aupd]
  by_cases hm : k ∈ l.map Prod.fst
  · simpa [hm] using h
  · simp only [hm, if_false]
    exact List.Nodup.append h (List.nodup_singleton k) (by simpa using hm)

theorem alookup_of_mem_nodup (l : List (α × β)) (k : α) (v : β)
    (hn : (l.map Prod.fst).Nodup) (hmem : (k, v) ∈ l) : alookup l k = some v := by
  induction l with
  | nil => simp at hmem
  | cons p t ih =>
      obtain ⟨k', v'⟩ := p
      simp only [List.map_cons, List.nodup_cons] at hn
      rcases List.mem_cons.1 hmem with h | h
      · obtain ⟨hk, hv⟩ := Prod.mk.injEq .. ▸ h
        injection h with h1
        simp_all [alookup]
      · have hk : k ≠ k' := by
          intro hkk
          subst hkk
          exact hn.1 (List.mem_map.2 ⟨(k, v), h, rfl⟩)
        simp [alookup, hk, ih hn.2 h]

theorem aupd_forall {P : β → Prop} (l : List (α × β)) (k : α) (f : Option β → β)
    (h1 : ∀ p ∈ l, P p.2) (h2 : ∀ o, P (f o)) : ∀ p ∈ aupd l k f, P p.2 := by
  induction l with
  | nil => simpa [aupd] using h2 none
  | cons p t ih =>
      obtain ⟨k', v⟩ := p
      by_cases h : k = k'
      · intro q hq
        simp only [aupd, h, if_pos rfl] at hq
        rcases List.mem_cons.1 hq with hh | hh
        · subst hh; exact h2 _
        · exact h1 _ (List.mem_cons_of_mem _ hh)
      · intro q hq
        simp only [aupd, h, if_false, if_neg h] at hq
        rcases List.mem_cons.1 hq with hh | hh
        · subst hh; exact h1 _ (List.mem_cons_self _ _)
        · exact ih (fun p hp => h1 p (List.mem_cons_of_mem _ hp)) _ hh

end AList

/-! ## Characterization of the builder's edge accumulators -/

theorem contribTo_iff (r : Record) (a b : String) :
    contribTo r a b = true ↔ contributes r = true ∧ r.localizacao = a ∧ r.decade = b := by
  simp [contribTo, Bool.and_eq_true, and_assoc]

theorem contributes_iff (r : Record) :
    contributes r = true ↔ ∃ p, r.gadm_adm0 = some p ∧ p ≠ "" := by
  cases h : r.gadm_adm0 with
  | none => simp [contributes, h]
  | some p => simp [contributes, h]

theorem insertRecord_edges_not_contrib (G : Graph) (r : Record) (a b : String)
    (h : contribTo r a b = false) :
    alookup (insertRecord G r).edges (a, b) = alookup G.edges (a, b) := by
  cases hg : r.gadm_adm0 with
  | none => simp [insertRecord, hg]
  | some p =>
      by_cases hp : p = ""
      · simp [insertRecord, hg, hp]
      · have hc : contributes r = true := (contributes_iff r).2 ⟨p, hg, hp⟩
        have hne : (a, b) ≠ (r.localizacao, r.decade) := by
          intro he
          have h1 : a = r.localizacao := congrArg Prod.fst he
          have h2 : b = r.decade := congrArg Prod.snd he
          have ht : contribTo r a b = true := (contribTo_iff r a b).2 ⟨hc, h1.symm, h2.symm⟩
          rw [ht] at h
          exact Bool.noConfusion h
        simp only [insertRecord, hg, hp, if_neg hp]
        exact alookup_aupd_ne _ _ _ _ hne

theorem insertRecord_edges_contrib (G : Graph) (r : Record) (a b : String)
    (h : contribTo r a b = true) :
    alookup (insertRecord G r).edges (a, b) =
      some (match alookup G.edges (a, b) with
            | none => ⟨r.tried, r.deaths⟩
            | some e => ⟨e.weight + r.tried, e.mortes + r.deaths⟩) := by
  obtain ⟨hc, hl, hd⟩ := (contribTo_iff r a b).1 h
  obtain ⟨p, hg, hp⟩ := (contributes_iff r).1 hc
  subst hl hd
  simp only [insertRecord, hg, if_neg hp, upsertEdge, addDecadaNode, addLocalNode]
  exact alookup_aupd_self _ _ _

/-- Effect of the whole ingestion fold on one edge accumulator: starting from
any graph, the edge for `(a, b)` ends at its initial value plus the sums over
exactly the records of `rs` that map to `(a, b)`; it is created iff some
record maps there. -/
theorem alookup_edges_foldl (rs : List Record) (G : Graph) (a b : String) :
    alookup (rs.foldl insertRecord G).edges (a, b) =
      match alookup G.edges (a, b) with
      | some e => some ⟨e.weight + edgeTrials rs a b, e.mortes + edgeDeaths rs a b⟩
      | none =>
          if rs.any (fun r => contribTo r a b) then
            some ⟨edgeTrials rs a b, edgeDeaths rs a b⟩
          else none := by
  induction rs generalizing G with
  | nil =>
      cases h : alookup G.edges (a, b) <;>
        simp [edgeTrials, edgeDeaths, h]
  | cons r rs ih =>
      cases hc : contribTo r a b with
      | true =>
          have hstep := insertRecord_edges_contrib G r a b hc
          have htr : edgeTrials (r :: rs) a b = r.tried + edgeTrials rs a b := by
            simp [edgeTrials, List.filter_cons, hc]
          have hde : edgeDeaths (r :: rs) a b = r.deaths + edgeDeaths rs a b := by
            simp [edgeDeaths, List.filter_cons, hc]
          have hany : (r :: rs).any (fun r => contribTo r a b) = true := by
            simp [List.any_cons, hc]
          rw [List.foldl_cons, ih (insertRecord G r)]
          cases hG : alookup G.edges (a, b) with
          | none =>
              rw [hG] at hstep
              simp [hstep, hany, htr, hde]
          | some e =>
              rw [hG] at hstep
              simp [hstep, htr, hde, add_assoc]
      | false =>
          have hstep := insertRecord_edges_not_contrib G r a b hc
          have htr : edgeTrials (r :: rs) a b = edgeTrials rs a b := by
            simp [edgeTrials, List.filter_cons, hc]
          have hde : edgeDeaths (r :: rs) a b = edgeDeaths rs a b := by
            simp [edgeDeaths, List.filter_cons, hc]
          have hany : (r :: rs).any (fun r => contribTo r a b) = rs.any (fun r => contribTo r a b) := by
            simp [List.any_cons, hc]
          rw [List.foldl_cons, ih (insertRecord G r), hstep, htr, hde, hany]

theorem localTouch_iff (r : Record) (a : String) :
    localTouch r a = true ↔ contributes r = true ∧ r.localizacao = a := by
  simp [localTouch]

theorem decadaTouch_iff (r : Record) (a : String) :
    decadaTouch r a = true ↔ contributes r = true ∧ r.decade = a := by
  simp [decadaTouch]

theorem insertRecord_nodes_not_touched (G : Graph) (r : Record) (a : String)
    (hl : localTouch r a = false) (hd : decadaTouch r a = false) :
    alookup (insertRecord G r).nodes a = alookup G.nodes a := by
  cases hg : r.gadm_adm0 with
  | none => simp [insertRecord, hg]
  | some p =>
      by_cases hp : p = ""
      · simp [insertRecord, hg, hp]
      · have hc : contributes r = true := (contributes_iff r).2 ⟨p, hg, hp⟩
        have hla : a ≠ r.localizacao := by
          intro he
          rw [(localTouch_iff r a).2 ⟨hc, he.symm⟩] at hl
          exact Bool.noConfusion hl
        have hda : a ≠ r.decade := by
          intro he
          rw [(decadaTouch_iff r a).2 ⟨hc, he.symm⟩] at hd
          exact Bool.noConfusion hd
        simp only [insertRecord, hg, if_neg hp, upsertEdge, addDecadaNode, addLocalNode]
        rw [alookup_aupd_ne _ _ _ _ hda, alookup_aupd_ne _ _ _ _ hla]

theorem insertRecord_nodes_local (G : Graph) (r : Record) (a : String)
    (hl : localTouch r a = true) (hd : decadaTouch r a = false) :
    alookup (insertRecord G r).nodes a = some (recordLocalData r) := by
  obtain ⟨hc, hla⟩ := (localTouch_iff r a).1 hl
  obtain ⟨p, hg, hp⟩ := (contributes_iff r).1 hc
  have hda : a ≠ r.decade := by
    intro he
    rw [(decadaTouch_iff r a).2 ⟨hc, he.symm⟩] at hd
    exact Bool.noConfusion hd
  subst hla
  simp only [insertRecord, hg, if_neg hp, upsertEdge, addDecadaNode, addLocalNode]
  rw [alookup_aupd_ne _ _ _ _ hda, alookup_aupd_self]
  simp [recordLocalData, hg]

theorem insertRecord_nodes_decada (G : Graph) (r : Record) (a : String)
    (hl : localTouch r a = false) (hd : decadaTouch r a = true)
    (hG : alookup G.nodes a = none ∨ alookup G.nodes a = some decadaFresh) :
    alookup (insertRecord G r).nodes a = some decadaFresh := by
  obtain ⟨hc, hda⟩ := (decadaTouch_iff r a).1 hd
  obtain ⟨p, hg, hp⟩ := (contributes_iff r).1 hc
  have hla : a ≠ r.localizacao := by
    intro he
    rw [(localTouch_iff r a).2 ⟨hc, he.symm⟩] at hl
    exact Bool.noConfusion hl
  subst hda
  simp only [insertRecord, hg, if_neg hp, upsertEdge, addDecadaNode, addLocalNode]
  rw [alookup_aupd_self, alookup_aupd_ne _ _ _ _ hla]
  rcases hG with h | h <;> rw [h] <;> rfl

private theorem getLast?_cons_cons' {α : Type} (a b : α) (l : List α) :
    (a :: b :: l).getLast? = (b :: l).getLast? := by
  simp [List.getLast?, List.getLast]

/-- Last-write-wins characterization of a location node's attributes: provided
the key `a` is never used as a decade label by `rs`, its attribute dict after
ingesting `rs` is the one written by the last record of `rs` whose location
key is `a` (or the initial state if there is none). -/
theorem lookup_nodes_foldl_local (rs : List Record) (G : Graph) (a : String)
    (h : ∀ r ∈ rs, decadaTouch r a = false) :
    alookup (rs.foldl insertRecord G).nodes a =
      match (rs.filter fun r => localTouch r a).getLast? with
      | some r => some (recordLocalData r)
      | none => alookup G.nodes a := by
  induction rs generalizing G with
  | nil => simp
  | cons r rs ih =>
      have hr := h r (List.mem_cons_self r rs)
      have hrs : ∀ r' ∈ rs, decadaTouch r' a = false :=
        fun r' hr' => h r' (List.mem_cons_of_mem r hr')
      cases hl : localTouch r a with
      | false =>
          have hstep := insertRecord_nodes_not_touched G r a hl hr
          rw [List.foldl_cons, ih (insertRecord G r) hrs, hstep]
          simp [List.filter_cons, hl]
      | true =>
          have hstep := insertRecord_nodes_local G r a hl hr
          rw [List.foldl_cons, ih (insertRecord G r) hrs]
          simp only [List.filter_cons, hl, if_true]
          cases hfe : rs.filter (fun r => localTouch r a) with
          | nil => simp [hfe, hstep]
          | cons x xs =>
              rw [getLast?_cons_cons']
              cases hlast : (x :: xs).getLast? with
              | none =>
                  exfalso
                  rw [List.getLast?_eq_none_iff] at hlast
                  exact List.noConfusion hlast
              | some r' => rfl

/-- A key only ever written as a decade node carries exactly the fresh decade
attribute dict (`tipo='decada'`, no other keys). -/
theorem lookup_nodes_foldl_decada (rs : List Record) (G : Graph) (a : String)
    (h : ∀ r ∈ rs, localTouch r a = false)
    (hG : alookup G.nodes a = none ∨ alookup G.nodes a = some decadaFresh) :
    alookup (rs.foldl insertRecord G).nodes a =
      if rs.any (fun r => decadaTouch r a) then some decadaFresh
      else alookup G.nodes a := by
  induction rs generalizing G with
  | nil => simp
  | cons r rs ih =>
      have hr := h r (List.mem_cons_self r rs)
      have hrs : ∀ r' ∈ rs, localTouch r' a = false :=
        fun r' hr' => h r' (List.mem_cons_of_mem r hr')
      cases hd : decadaTouch r a with
      | false =>
          have hstep := insertRecord_nodes_not_touched G r a hr hd
          rw [List.foldl_cons, ih (insertRecord G r) hrs (hstep ▸ hG), hstep]
          simp [List.any_cons, hd]
      | true =>
          have hstep := insertRecord_nodes_decada G r a hr hd hG
          rw [List.foldl_cons, ih (insertRecord G r) hrs (Or.inr hstep), hstep]
          simp [List.any_cons, hd]

theorem alookup_aupd_isSome_iff {α β : Type} [DecidableEq α]
    (l : List (α × β)) (k k' : α) (f : Option β → β) :
    (alookup (aupd l k' f) k).isSome ↔ k = k' ∨ (alookup l k).isSome := by
  by_cases h : k = k'
  · subst h
    simp [alookup_aupd_self]
  · rw [alookup_aupd_ne _ _ _ _ h]
    simp [h]

theorem insertRecord_nodes_isSome_iff (G : Graph) (r : Record) (k : String) :
    (alookup (insertRecord G r).nodes k).isSome ↔
      touchesNode r k = true ∨ (alookup G.nodes k).isSome := by
  cases hg : r.gadm_adm0 with
  | none => simp [insertRecord, hg, touchesNode, contributes]
  | some p =>
      by_cases hp : p = ""
      · simp [insertRecord, hg, hp, touchesNode, contributes]
      · have hc : contributes r = true := (contributes_iff r).2 ⟨p, hg, hp⟩
        simp only [insertRecord, hg, if_neg hp, upsertEdge, addDecadaNode, addLocalNode]
        rw [alookup_aupd_isSome_iff, alookup_aupd_isSome_iff]
        simp only [touchesNode, hc, Bool.true_and, Bool.or_eq_true, beq_iff_eq]
        constructor
        · rintro (h | h | h)
          · exact Or.inl (Or.inr h.symm)
          · exact Or.inl (Or.inl h.symm)
          · exact Or.inr h
        · rintro ((h | h) | h)
          · exact Or.inr (Or.inl h.symm)
          · exact Or.inl h.symm
          · exact Or.inr (Or.inr h)

/-- A key is a node of the built graph iff some non-skipped record touches it
(as its location key or its decade label). -/
theorem nodes_isSome_foldl (rs : List Record) (G : Graph) (k : String) :
    (alookup (rs.foldl insertRecord G).nodes k).isSome ↔
      (alookup G.nodes k).isSome ∨ ∃ r ∈ rs, touchesNode r k = true := by
  induction rs generalizing G with
  | nil => simp
  | cons r rs ih =>
      rw [List.foldl_cons, ih (insertRecord G r)]
      rw [insertRecord_nodes_isSome_iff]
      constructor
      · rintro ((h | h) | ⟨r', hr', ht⟩)
        · exact Or.inr ⟨r, List.mem_cons_self r rs, h⟩
        · exact Or.inl h
        · exact Or.inr ⟨r', List.mem_cons_of_mem r hr', ht⟩
      · rintro (h | ⟨r', hr', ht⟩)
        · exact Or.inl (Or.inr h)
        · rcases List.mem_cons.1 hr' with he | he
          · subst he; exact Or.inl (Or.inl ht)
          · exact Or.inr ⟨r', he, ht⟩

/-- Node keys stay duplicate-free across the whole ingestion fold. -/
theorem nodup_nodes_foldl (rs : List Record) (G : Graph)
    (hG : (G.nodes.map Prod.fst).Nodup) :
    (((rs.foldl insertRecord G).nodes).map Prod.fst).Nodup := by
  induction rs generalizing G with
  | nil => exact hG
  | cons r rs ih =>
      rw [List.foldl_cons]
      apply ih
      cases hg : r.gadm_adm0 with
      | none => simpa [insertRecord, hg] using hG
      | some p =>
          by_cases hp : p = ""
          · simpa [insertRecord, hg, hp] using hG
          · simp only [insertRecord, hg, if_neg hp, upsertEdge, addDecadaNode, addLocalNode]
            exact nodup_keys_aupd _ _ _ (nodup_keys_aupd _ _ _ hG)

/-- Edge keys stay duplicate-free across the whole ingestion fold: at most one
directed edge ever exists for an ordered (location, decade) pair. -/
theorem nodup_edges_foldl (rs : List Record) (G : Graph)
    (hG : (G.edges.map Prod.fst).Nodup) :
    (((rs.foldl insertRecord G).edges).map Prod.fst).Nodup := by
  induction rs generalizing G with
  | nil => exact hG
  | cons r rs ih =>
      rw [List.foldl_cons]
      apply ih
      cases hg : r.gadm_adm0 with
      | none => simpa [insertRecord, hg] using hG
      | some p =>
          by_cases hp : p = ""
          · simpa [insertRecord, hg, hp] using hG
          · simp only [insertRecord, hg, if_neg hp, upsertEdge, addDecadaNode, addLocalNode]
            exact nodup_keys_aupd _ _ _ hG

/-- Every node written by the builder satisfies the schema. -/
theorem nodes_schema_foldl (rs : List Record) (G : Graph)
    (hG : ∀ p ∈ G.nodes, NodeSchema p.2) :
    ∀ p ∈ (rs.foldl insertRecord G).nodes, NodeSchema p.2 := by
  induction rs generalizing G with
  | nil => exact hG
  | cons r rs ih =>
      rw [List.foldl_cons]
      apply ih
      cases hg : r.gadm_adm0 with
      | none => simpa [insertRecord, hg] using hG
      | some p =>
          by_cases hp : p = ""
          · simpa [insertRecord, hg, hp] using hG
          · simp only [insertRecord, hg, if_neg hp, upsertEdge, addDecadaNode, addLocalNode]
            apply aupd_forall
            · apply aupd_forall
              · exact hG
              · intro o
                exact ⟨Or.inl rfl, fun _ => by simp⟩
            · intro o
              cases o with
              | none => exact ⟨Or.inr rfl, fun hco => by simp [decadaFresh] at hco⟩
              | some d =>
                  refine ⟨Or.inr rfl, fun hco => ?_⟩
                  exact absurd hco (by simp)

/-- Shared helper: the edge map of the built graph, fully characterized. -/
theorem lookupEdge_construir (rs : List Record) (a b : String) :
    alookup (construir_grafo rs).edges (a, b) =
      (if rs.any (fun r => contribTo r a b) then
        some ⟨edgeTrials rs a b, edgeDeaths rs a b⟩
      else none) := by
  have h := alookup_edges_foldl rs ⟨[], []⟩ a b
  simpa [construir_grafo, alookup] using h

/-- C1: for every record sequence and every ordered (Location, TimePeriod)
pair, the built graph has at most one directed edge for the pair (edge keys
are duplicate-free), and the edge exists iff some record maps to the pair, in
which case its `weight` (trial count) and `mortes` (death count) are exactly
the sums of `tried`/`deaths` over the records mapping to it — repeated
records accumulate by summation, never overwrite. -/
theorem C1_edge_accumulation (rs : List Record) (a b : String) :
    (((construir_grafo rs).edges).map Prod.fst).Nodup ∧
    alookup (construir_grafo rs).edges (a, b) =
      (if rs.any (fun r => contribTo r a b) then
        some ⟨edgeTrials rs a b, edgeDeaths rs a b⟩
      else none) :=
  ⟨nodup_edges_foldl rs ⟨[], []⟩ (by simp), lookupEdge_construir rs a b⟩

/-- C2 counterexample: two records share the location key "X, N" with
different coordinates; the built node carries the SECOND record's attributes
(networkx `add_node` updates the attribute dict), so the claimed
"first-seen value wins" is false. -/
theorem C2_counterexample :
    alookup (construir_grafo [rLat1, rLat2]).nodes "X, N" =
      some (recordLocalData rLat2) ∧
    alookup (construir_grafo [rLat1, rLat2]).nodes "X, N" ≠
      some (recordLocalData rLat1) := by decide

/-- C2 amended: a Location node's attributes equal those of the LAST record
seen for its key (last write wins), provided the key is never used as a
decade label. -/
theorem C2_amended_last_write_wins (rs : List Record) (a : String)
    (h : ∀ r ∈ rs, decadaTouch r a = false) :
    alookup (construir_grafo rs).nodes a =
      match (rs.filter fun r => localTouch r a).getLast? with
      | some r => some (recordLocalData r)
      | none => none := by
  have hh := lookup_nodes_foldl_local rs ⟨[], []⟩ a h
  simpa [construir_grafo, alookup] using hh

/-- C2 amended, witnessed at the two-record counterexample input. -/
theorem C2_amended_witness :
    (([rLat1, rLat2].all fun r => !decadaTouch r "X, N") = true) ∧
    alookup (construir_grafo [rLat1, rLat2]).nodes "X, N" =
      some (recordLocalData rLat2) := by
  refine ⟨by decide, ?_⟩
  have h := C2_amended_last_write_wins [rLat1, rLat2] "X, N" (by decide)
  exact h.trans (by decide)

/-- C4 counterexample: a record with negative counts is not rejected, logged
or skipped — no `DataIntegrityError` exists in the code — and its negative
counts land in the edge accumulator. -/
theorem C4_counterexample :
    alookup (construir_grafo [rNeg]).edges ("X, N", "1600") =
      some ⟨-5, -1⟩ ∧
    (construir_grafo [rNeg]).edges ≠ [] := by decide

/-- C4 amended: a record with a known, non-blank country is always inserted —
negative counts included, with no validation and no exception — and its
counts are added to the pair's accumulator like any other record's. -/
theorem C4_amended_negative_accumulates (rs : List Record) (r : Record) (p : String)
    (hg : r.gadm_adm0 = some p) (hp : p ≠ "") :
    alookup (construir_grafo (rs ++ [r])).edges (r.localizacao, r.decade) =
      some ⟨edgeTrials rs r.localizacao r.decade + r.tried,
            edgeDeaths rs r.localizacao r.decade + r.deaths⟩ := by
  have hc : contribTo r r.localizacao r.decade = true :=
    (contribTo_iff r _ _).2 ⟨(contributes_iff r).2 ⟨p, hg, hp⟩, rfl, rfl⟩
  have hfold : construir_grafo (rs ++ [r]) =
      insertRecord (rs.foldl insertRecord ⟨[], []⟩) r := by
    simp [construir_grafo, List.foldl_append]
  rw [hfold, insertRecord_edges_contrib _ r _ _ hc,
      alookup_edges_foldl rs ⟨[], []⟩ r.localizacao r.decade]
  have hbase : alookup (Graph.mk [] []).edges (r.localizacao, r.decade) = none := rfl
  rw [hbase]
  cases hany : rs.any (fun r' => contribTo r' r.localizacao r.decade) with
  | true => simp
  | false =>
      have hnil : rs.filter (fun r' => contribTo r' r.localizacao r.decade) = [] := by
        rw [List.filter_eq_nil_iff]
        intro x hx
        rw [List.any_eq_false] at hany
        exact hany x hx
      simp [edgeTrials, edgeDeaths, hnil]

/-- C4 amended, witnessed: appending the negative record to `[rX1]` yields the
edge accumulator `5 + (-5) = 0`, `2 + (-1) = 1`. -/
theorem C4_amended_witness :
    rNeg.gadm_adm0 = some "N" ∧ ("N" : String) ≠ "" ∧
    alookup (construir_grafo ([rX1] ++ [rNeg])).edges ("X, N", "1600") =
      some ⟨0, 1⟩ := by
  refine ⟨rfl, by decide, ?_⟩
  have h := C4_amended_negative_accumulates [rX1] rNeg "N" rfl (by decide)
  exact h.trans (by decide)

/-- C9: building from any permutation of the records yields the same node set
and the same edge map — every ordered pair gets an identical accumulator
(weight and mortes) — because summation is order-independent. -/
theorem C9_permutation_invariance (rs rs' : List Record) (h : rs.Perm rs') :
    (∀ k, (alookup (construir_grafo rs).nodes k).isSome ↔
          (alookup (construir_grafo rs').nodes k).isSome) ∧
    (∀ a b, alookup (construir_grafo rs).edges (a, b) =
            alookup (construir_grafo rs').edges (a, b)) := by
  constructor
  · intro k
    rw [construir_grafo, construir_grafo, nodes_isSome_foldl, nodes_isSome_foldl]
    constructor
    · rintro (hfalse | ⟨r, hr, ht⟩)
      · exact Or.inl hfalse
      · exact Or.inr ⟨r, h.mem_iff.1 hr, ht⟩
    · rintro (hfalse | ⟨r, hr, ht⟩)
      · exact Or.inl hfalse
      · exact Or.inr ⟨r, h.mem_iff.2 hr, ht⟩
  · intro a b
    have htr : edgeTrials rs a b = edgeTrials rs' a b :=
      List.Perm.sum_eq (List.Perm.map _ (List.Perm.filter _ h))
    have hde : edgeDeaths rs a b = edgeDeaths rs' a b :=
      List.Perm.sum_eq (List.Perm.map _ (List.Perm.filter _ h))
    have hany : rs.any (fun r => contribTo r a b) = rs'.any (fun r => contribTo r a b) := by
      rw [Bool.eq_iff_iff, List.any_eq_true, List.any_eq_true]
      constructor
      · rintro ⟨r, hr, hp⟩; exact ⟨r, h.mem_iff.1 hr, hp⟩
      · rintro ⟨r, hr, hp⟩; exact ⟨r, h.mem_iff.2 hr, hp⟩
    rw [lookupEdge_construir rs a b, lookupEdge_construir rs' a b, htr, hde, hany]

/-- C9, witnessed at the spec's two-record example and its transposition. -/
theorem C9_witness :
    ([rX1, rX2].Perm [rX2, rX1]) ∧
    alookup (construir_grafo [rX1, rX2]).edges ("X, N", "1600") =
      alookup (construir_grafo [rX2, rX1]).edges ("X, N", "1600") := by
  have hperm : [rX1, rX2].Perm [rX2, rX1] := List.Perm.swap rX2 rX1 []
  exact ⟨hperm, (C9_permutation_invariance [rX1, rX2] [rX2, rX1] hperm).2 "X, N" "1600"⟩

/-- C10: in every graph the builder produces (from records whose location keys
avoid their decade labels), every node's `tipo` is `'local'` or `'decada'`;
every `'local'` node also carries the `pais`, `lat` and `lon` keys (the
coordinate values may be `None`); and every edge record carries both a
`weight` and a `mortes` field. -/
theorem C10_schema (rs : List Record) (_h : labelsDisjoint rs) :
    (∀ p ∈ (construir_grafo rs).nodes, NodeSchema p.2) ∧
    (∀ e ∈ (construir_grafo rs).edges, ∃ w m : Int, e.2 = ⟨w, m⟩) := by
  constructor
  · exact nodes_schema_foldl rs ⟨[], []⟩ (by simp)
  · intro e _
    exact ⟨e.2.weight, e.2.mortes, rfl⟩

/-- C3 (code bug evidence): on a non-empty input whose `tried`/`deaths`
totals are zero, the overall death rate computation returns `nan` — numpy's
`0/0` — not the claimed `0.0`; the `except ZeroDivisionError` guard never
fires.  On the empty input it returns the `None` triple, not `(0, 0, 0.0)`. -/
theorem C3_zero_totals_yield_nan :
    taxa_mortalidade [rZero] = PyFloat.nan ∧
    calcular_taxas_mortalidade_geral [rZero] = some (0, 0, PyFloat.nan) ∧
    calcular_taxas_mortalidade_geral [] = none ∧
    PyFloat.nan ≠ PyFloat.val 0 := by decide

/-- C10, witnessed on the one-record build. -/
theorem C10_witness :
    labelsDisjoint [rX1] ∧
    NodeSchema (⟨"local", some none, some none, some "N"⟩ : NodeData) := by
  refine ⟨by unfold labelsDisjoint; decide, ?_⟩
  exact (C10_schema [rX1] (by unfold labelsDisjoint; decide)).1 ("X, N", ⟨"local", some none, some none, some "N"⟩)
    (by decide)

/-! ## Aggregation and ranking (`top_paises`) -/

theorem alookup_mem {α β : Type} [DecidableEq α] (l : List (α × β)) (k : α) (v : β)
    (h : alookup l k = some v) : (k, v) ∈ l := by
  induction l with
  | nil => simp [alookup] at h
  | cons p t ih =>
      obtain ⟨k', v'⟩ := p
      by_cases hk : k = k'
      · subst hk
        simp [alookup] at h
        rw [← h]
        exact List.mem_cons_self _ _
      · simp only [alookup, if_neg hk] at h
        exact List.mem_cons_of_mem _ (ih h)

theorem paisAgg_lookup_gen (ns : List (String × NodeData)) (G : Graph)
    (acc : List (String × (Int × Int))) (c : String) :
    alookup (ns.foldl (paisStep G) acc) c =
      match alookup acc c with
      | some jm =>
          some
            (jm.1 + ((ns.filter fun p => isLocalWithPais p.2 && p.2.pais.getD "" == c).map
                      fun p => outTotalsW G p.1).sum,
             jm.2 + ((ns.filter fun p => isLocalWithPais p.2 && p.2.pais.getD "" == c).map
                      fun p => outTotalsM G p.1).sum)
      | none =>
          if ns.any (fun p => isLocalWithPais p.2 && p.2.pais.getD "" == c) then
            some
              (((ns.filter fun p => isLocalWithPais p.2 && p.2.pais.getD "" == c).map
                  fun p => outTotalsW G p.1).sum,
               ((ns.filter fun p => isLocalWithPais p.2 && p.2.pais.getD "" == c).map
                  fun p => outTotalsM G p.1).sum)
          else none := by
  induction ns generalizing acc with
  | nil => cases h : alookup acc c <;> simp [h]
  | cons p ns ih =>
      cases hloc : isLocalWithPais p.2 with
      | false =>
          have hstep : paisStep G acc p = acc := by simp [paisStep, hloc]
          have hhit : (isLocalWithPais p.2 && p.2.pais.getD "" == c) = false := by
            rw [hloc]
            simp
          rw [List.foldl_cons, hstep, ih acc]
          cases hacc : alookup acc c with
          | none =>
              simp only [List.filter_cons, List.any_cons, hhit, Bool.false_or, Bool.true_or,
                Bool.false_eq_true, eq_self_iff_true, if_false, if_true,
                List.map_cons, List.sum_cons, add_assoc]
          | some jm =>
              simp only [List.filter_cons, List.any_cons, hhit, Bool.false_or, Bool.true_or,
                Bool.false_eq_true, eq_self_iff_true, if_false, if_true,
                List.map_cons, List.sum_cons, add_assoc]
      | true =>
          cases hpc : (p.2.pais.getD "" == c) with
          | false =>
              have hkc : c ≠ p.2.pais.getD "" := by
                intro he
                rw [he] at hpc
                simp at hpc
              have hstep : alookup (paisStep G acc p) c = alookup acc c := by
                simp only [paisStep, hloc, if_true]
                exact alookup_aupd_ne _ _ _ _ hkc
              have hhit : (isLocalWithPais p.2 && p.2.pais.getD "" == c) = false := by
                rw [hpc]
                simp
              rw [List.foldl_cons, ih (paisStep G acc p), hstep]
              cases hacc : alookup acc c with
              | none =>
                  simp only [List.filter_cons, List.any_cons, hhit, Bool.false_or, Bool.true_or,
                    Bool.false_eq_true, eq_self_iff_true, if_false, if_true,
                    List.map_cons, List.sum_cons, add_assoc]
              | some jm =>
                  simp only [List.filter_cons, List.any_cons, hhit, Bool.false_or, Bool.true_or,
                    Bool.false_eq_true, eq_self_iff_true, if_false, if_true,
                    List.map_cons, List.sum_cons, add_assoc]
          | true =>
              have hkc : p.2.pais.getD "" = c := by simpa using hpc
              have hstep : alookup (paisStep G acc p) c =
                  some (match alookup acc c with
                        | none => (outTotalsW G p.1, outTotalsM G p.1)
                        | some jm => (jm.1 + outTotalsW G p.1, jm.2 + outTotalsM G p.1)) := by
                simp only [paisStep, hloc, if_true, hkc]
                exact alookup_aupd_self _ _ _
              have hhit : (isLocalWithPais p.2 && p.2.pais.getD "" == c) = true := by
                rw [hloc, hpc]
                rfl
              rw [List.foldl_cons, ih (paisStep G acc p), hstep]
              cases hacc : alookup acc c with
              | none =>
                  simp only [List.filter_cons, List.any_cons, hhit, Bool.false_or, Bool.true_or,
                    Bool.false_eq_true, eq_self_iff_true, if_false, if_true,
                    List.map_cons, List.sum_cons, add_assoc]
              | some jm =>
                  simp only [List.filter_cons, List.any_cons, hhit, Bool.false_or, Bool.true_or,
                    Bool.false_eq_true, eq_self_iff_true, if_false, if_true,
                    List.map_cons, List.sum_cons, add_assoc]

/-- The country dict of `top_paises`, characterized: a country is present iff
it has a location node, and its accumulator is the per-country sum. -/
theorem paisAgg_lookup (G : Graph) (c : String) :
    alookup (paisAgg G) c =
      if countryHasNode G c then some (countrySumW G c, countrySumM G c) else none := by
  have h := paisAgg_lookup_gen G.nodes G [] c
  simpa [paisAgg, alookup, countrySumW, countrySumM, countryHasNode] using h

theorem paisAgg_nodup (G : Graph) : ((paisAgg G).map Prod.fst).Nodup := by
  rw [paisAgg]
  have hgen : ∀ (ns : List (String × NodeData)) (acc : List (String × (Int × Int))),
      (acc.map Prod.fst).Nodup → ((ns.foldl (paisStep G) acc).map Prod.fst).Nodup := by
    intro ns
    induction ns with
    | nil => intro acc h; exact h
    | cons p ns ih =>
        intro acc h
        rw [List.foldl_cons]
        apply ih
        cases hloc : isLocalWithPais p.2 with
        | false => simpa [paisStep, hloc] using h
        | true =>
            simp only [paisStep, hloc, if_true]
            exact nodup_keys_aupd _ _ _ h
  exact hgen G.nodes [] (by simp)

/-- C5: `top_paises` aggregates trials and deaths per country over the
outgoing edges of the Location nodes, computes the rate as deaths/trials
(guarded, never raising), keeps exactly the positive-trial countries, sorts
descending by trials, truncates to `n` rows, and on the spec's two-record
example returns exactly one row for country N with 8 trials, 3 deaths and
rate 3/8 = 0.375. -/
theorem C5_top_paises (G : Graph) (n : Nat) :
    List.Sorted paisDescRel (top_paises G n) ∧
    (top_paises G n).length ≤ n ∧
    (∀ row ∈ top_paises G n,
        0 < row.julgamentos ∧
        row.julgamentos = countrySumW G row.pais ∧
        row.mortes = countrySumM G row.pais ∧
        row.taxa = (row.mortes : Rat) / (row.julgamentos : Rat)) ∧
    (∀ c, countryHasNode G c = true → 0 < countrySumW G c →
        (paisRowsUnsorted G).length ≤ n →
        ∃ row ∈ top_paises G n, row.pais = c ∧ row.julgamentos = countrySumW G c) ∧
    (top_paises (construir_grafo [rX1, rX2]) 10 =
        [⟨"N", 8, 3, ((3 : Int) : Rat) / ((8 : Int) : Rat)⟩] ∧
      ((3 : Int) : Rat) / ((8 : Int) : Rat) = 0.375) := by
  have hperm := List.perm_insertionSort paisDescRel (paisRowsUnsorted G)
  have hsorted := List.sorted_insertionSort paisDescRel (paisRowsUnsorted G)
  refine ⟨?_, ?_, ?_, ?_, rfl, by norm_num⟩
  · exact List.Pairwise.sublist (List.take_sublist _ _) hsorted
  · exact List.length_take_le _ _
  · intro row hrow
    have hmem : row ∈ paisRowsUnsorted G :=
      hperm.mem_iff.1 (List.mem_of_mem_take hrow)
    rw [paisRowsUnsorted] at hmem
    obtain ⟨pr, hpr, hf⟩ := List.mem_filterMap.1 hmem
    by_cases hpos : 0 < pr.2.1
    · rw [if_pos hpos, Option.some.injEq] at hf
      have hlook : alookup (paisAgg G) pr.1 = some pr.2 :=
        alookup_of_mem_nodup _ _ _ (paisAgg_nodup G) hpr
      rw [paisAgg_lookup] at hlook
      by_cases hhas : countryHasNode G pr.1 = true
      · rw [if_pos hhas, Option.some.injEq] at hlook
        subst hf
        refine ⟨hpos, ?_, ?_, ?_⟩
        · exact congrArg Prod.fst hlook.symm
        · exact congrArg Prod.snd hlook.symm
        · simp [hpos]
      · rw [if_neg hhas] at hlook
        exact Option.noConfusion hlook
    · rw [if_neg hpos] at hf
      exact Option.noConfusion hf
  · intro c hhas hpos hlen
    have hlook : alookup (paisAgg G) c = some (countrySumW G c, countrySumM G c) := by
      rw [paisAgg_lookup, if_pos hhas]
    have hmemAgg : (c, (countrySumW G c, countrySumM G c)) ∈ paisAgg G :=
      alookup_mem _ _ _ hlook
    have hrowmem :
        (⟨c, countrySumW G c, countrySumM G c,
          if 0 < countrySumW G c then (countrySumM G c : Rat) / (countrySumW G c : Rat)
          else 0⟩ : PaisRow) ∈ paisRowsUnsorted G := by
      rw [paisRowsUnsorted]
      refine List.mem_filterMap.2 ⟨(c, (countrySumW G c, countrySumM G c)), hmemAgg, ?_⟩
      rw [if_pos hpos]
    have htake : (List.insertionSort paisDescRel (paisRowsUnsorted G)).take n =
        List.insertionSort paisDescRel (paisRowsUnsorted G) :=
      List.take_of_length_le (by rw [hperm.length_eq]; exact hlen)
    refine ⟨⟨c, countrySumW G c, countrySumM G c,
        if 0 < countrySumW G c then (countrySumM G c : Rat) / (countrySumW G c : Rat)
        else 0⟩, ?_, rfl, rfl⟩
    rw [top_paises, htake]
    exact hperm.mem_iff.2 hrowmem

/-! ## The temporal series (`julgamentos_por_decada`) -/

/-- C6 counterexample: "1600" is a digit-labelled decade node of the graph
built from one zero-trial record, but the series has no row for it — the code
keeps only decades with positive trials, and with no qualifying row at all it
raises `KeyError` instead of returning an empty series. -/
theorem C6_counterexample :
    alookup (construir_grafo [rZero]).nodes "1600" = some decadaFresh ∧
    isDigitString "1600" = true ∧
    julgamentos_por_decada (construir_grafo [rZero]) = Except.error "KeyError" :=
  ⟨by decide, by decide, rfl⟩

/-- C6 amended: whenever the series is produced (some decade qualifies), it
has a row for exactly the digit-labelled TimePeriod nodes with POSITIVE
summed incoming trials — zero-trial numeric decades are excluded along with
the non-numeric labels — sorted ascending by numeric value, each row carrying
the node's incoming sums and rate deaths/trials (denominator positive). -/
theorem C6_amended_series (G : Graph) (out : List DecadaRow)
    (hok : julgamentos_por_decada G = Except.ok out) :
    List.Sorted (fun x y : DecadaRow => x.decada ≤ y.decada) out ∧
    (∀ row ∈ out,
        0 < row.julgamentos ∧
        row.taxa = (row.mortes : Rat) / (row.julgamentos : Rat) ∧
        ∃ lab ∈ decadaNodes G, isDigitString lab = true ∧ row.decada = digitsToInt lab ∧
          row.julgamentos = inTotalsW G lab ∧ row.mortes = inTotalsM G lab) ∧
    (∀ lab ∈ decadaNodes G, isDigitString lab = true → 0 < inTotalsW G lab →
        ∃ row ∈ out, row.decada = digitsToInt lab ∧ row.julgamentos = inTotalsW G lab ∧
          row.mortes = inTotalsM G lab) := by
  have hout : out = decadaRows G := by
    rw [julgamentos_por_decada] at hok
    by_cases he : (decadaRows G).isEmpty
    · rw [if_pos he] at hok
      exact Except.noConfusion hok
    · rw [if_neg he] at hok
      exact (Except.ok.injEq .. ▸ hok).symm
  subst hout
  have hperm := List.perm_insertionSort decAscRel ((decadaNodes G).filter isDigitString)
  have hsorted := List.sorted_insertionSort decAscRel ((decadaNodes G).filter isDigitString)
  refine ⟨?_, ?_, ?_⟩
  · rw [decadaRows]
    refine List.pairwise_filterMap.mpr (List.Pairwise.imp ?_ hsorted)
    intro a b hab x hx y hy
    have hxa : x.decada = digitsToInt a := by
      by_cases hpa : 0 < inTotalsW G a
      · rw [if_pos hpa, Option.mem_def, Option.some.injEq] at hx
        rw [← hx]
      · rw [if_neg hpa] at hx
        exact Option.noConfusion hx
    have hyb : y.decada = digitsToInt b := by
      by_cases hpb : 0 < inTotalsW G b
      · rw [if_pos hpb, Option.mem_def, Option.some.injEq] at hy
        rw [← hy]
      · rw [if_neg hpb] at hy
        exact Option.noConfusion hy
    rw [hxa, hyb]
    exact hab
  · intro row hrow
    rw [decadaRows] at hrow
    obtain ⟨d, hd, hf⟩ := List.mem_filterMap.1 hrow
    have hd2 : d ∈ (decadaNodes G).filter isDigitString := hperm.mem_iff.1 hd
    obtain ⟨hdn, hdig⟩ := List.mem_filter.1 hd2
    by_cases hpa : 0 < inTotalsW G d
    · rw [if_pos hpa, Option.some.injEq] at hf
      rw [← hf]
      exact ⟨hpa, rfl, d, hdn, hdig, rfl, rfl, rfl⟩
    · rw [if_neg hpa] at hf
      exact Option.noConfusion hf
  · intro lab hlab hdig hpos
    refine ⟨⟨digitsToInt lab, inTotalsW G lab, inTotalsM G lab,
        (inTotalsM G lab : Rat) / (inTotalsW G lab : Rat)⟩, ?_, rfl, rfl, rfl⟩
    rw [decadaRows]
    refine List.mem_filterMap.2 ⟨lab, ?_, ?_⟩
    · exact hperm.mem_iff.2 (List.mem_filter.2 ⟨hlab, hdig⟩)
    · rw [if_pos hpos]

/-- C6 amended, witnessed at the two-record example build, whose series is the
single row (1600, 8, 3, 3/8). -/
theorem C6_witness :
    julgamentos_por_decada (construir_grafo [rX1, rX2]) =
      Except.ok [⟨1600, 8, 3, ((3 : Int) : Rat) / ((8 : Int) : Rat)⟩] ∧
    List.Sorted (fun x y : DecadaRow => x.decada ≤ y.decada)
      [⟨1600, 8, 3, ((3 : Int) : Rat) / ((8 : Int) : Rat)⟩] :=
  ⟨rfl, (C6_amended_series (construir_grafo [rX1, rX2])
      [⟨1600, 8, 3, ((3 : Int) : Rat) / ((8 : Int) : Rat)⟩] rfl).1⟩

/-! ## Centralities (`analisar_centralidades`) -/

theorem walkCount_eq_zero_no_in (G : Graph) (u : String)
    (h : ∀ e ∈ G.edges, e.1.2 ≠ u) (k : Nat) (s : String) (hs : s ≠ u) :
    walkCount G k s u = 0 := by
  cases k with
  | zero => simp [walkCount, hs]
  | succ k =>
      simp only [walkCount]
      apply List.sum_eq_zero
      intro x hx
      obtain ⟨e, he, hex⟩ := List.mem_map.1 hx
      rw [← hex, if_neg (h e he)]

theorem distG_self_zero (G : Graph) (u : String) : distG G u u = some 0 := by
  rw [distG, List.range_succ_eq_map]
  simp [List.find?_cons, walkCount]

theorem distG_none_no_in (G : Graph) (u s : String)
    (h : ∀ e ∈ G.edges, e.1.2 ≠ u) (hs : s ≠ u) : distG G s u = none := by
  rw [distG, List.find?_eq_none]
  intro k _
  simp [walkCount_eq_zero_no_in G u h k s hs]

/-- C7 counterexample: on the one-record build (one edge Location → decade),
the code's closeness of the Location node is 0 — networkx closeness on a
DiGraph uses INCOMING distances, and a Location node has no incoming edges —
whereas the spec's undirected reading gives 1.  The centralities are NOT
computed over an undirected view. -/
theorem C7_counterexample :
    closeness_centrality (construir_grafo [rX1]) "X, N" = 0 ∧
    closeness_centrality_spec_undirected (construir_grafo [rX1]) "X, N" = 1 ∧
    ¬ (closeness_centrality (construir_grafo [rX1]) "X, N" =
        closeness_centrality_spec_undirected (construir_grafo [rX1]) "X, N") := by
  have h0 : closeness_centrality (construir_grafo [rX1]) "X, N" = 0 := rfl
  have h1 : closeness_centrality_spec_undirected (construir_grafo [rX1]) "X, N" = 1 := by
    have hsym : closeness_centrality_spec_undirected (construir_grafo [rX1]) "X, N" =
        ((1 : Nat) : Rat) / ((1 : Nat) : Rat) * (((1 : Nat) : Rat) / ((1 : Nat) : Rat)) := rfl
    rw [hsym]
    norm_num
  refine ⟨h0, h1, ?_⟩
  rw [h0, h1]
  norm_num

/-- C7 amended: closeness and betweenness are computed on the directed graph
as built (closeness via incoming shortest paths, betweenness via directed
shortest paths); both are total functions, and a node no edge points to —
e.g. any Location node, unreachable from every peer — receives the defined
value 0 rather than an error. -/
theorem C7_amended_directed_defined (G : Graph) (u : String)
    (h : ∀ e ∈ G.edges, e.1.2 ≠ u) :
    closeness_centrality G u = 0 ∧ betweenness_centrality G u = 0 := by
  constructor
  · have hsp : ∀ d ∈ (nodeKeys G).filterMap fun v => distG G v u, d = 0 := by
      intro d hd
      obtain ⟨v, hv, hdist⟩ := List.mem_filterMap.1 hd
      by_cases hvu : v = u
      · subst hvu
        rw [distG_self_zero] at hdist
        exact (Option.some.injEq .. ▸ hdist).symm
      · rw [distG_none_no_in G u v h hvu] at hdist
        exact Option.noConfusion hdist
    have htot : ((nodeKeys G).filterMap fun v => distG G v u).sum = 0 :=
      List.sum_eq_zero hsp
    simp only [closeness_centrality]
    rw [htot]
    simp
  · have hraw : ((nodeKeys G).map fun s =>
        ((nodeKeys G).map fun t =>
          if s ≠ u ∧ t ≠ u ∧ s ≠ t then spThrough G s t u else 0).sum).sum = 0 := by
      apply List.sum_eq_zero
      intro x hx
      obtain ⟨s, hs, hsx⟩ := List.mem_map.1 hx
      rw [← hsx]
      apply List.sum_eq_zero
      intro y hy
      obtain ⟨t, ht, hty⟩ := List.mem_map.1 hy
      rw [← hty]
      by_cases hcond : s ≠ u ∧ t ≠ u ∧ s ≠ t
      · rw [if_pos hcond, spThrough, distG_none_no_in G u s h hcond.1]
      · rw [if_neg hcond]
    simp only [betweenness_centrality]
    rw [hraw]
    by_cases hn : 2 < G.nodes.length
    · rw [if_pos hn, zero_div]
    · rw [if_neg hn]

/-- C7 amended, witnessed: the Location node of the one-record build has no
incoming edges, and both its centralities are 0. -/
theorem C7_amended_witness :
    ((construir_grafo [rX1]).edges.all fun e => !(e.1.2 == "X, N")) = true ∧
    closeness_centrality (construir_grafo [rX1]) "X, N" = 0 ∧
    betweenness_centrality (construir_grafo [rX1]) "X, N" = 0 := by
  have hno : ∀ e ∈ (construir_grafo [rX1]).edges, e.1.2 ≠ "X, N" := by decide
  exact ⟨by decide, (C7_amended_directed_defined (construir_grafo [rX1]) "X, N" hno).1,
    (C7_amended_directed_defined (construir_grafo [rX1]) "X, N" hno).2⟩

/-! ## Community detection (`detectar_comunidades`) -/

theorem flatten_singletons {α : Type} (ls : List α) :
    (ls.map fun u => [u]).flatten = ls := by
  induction ls with
  | nil => rfl
  | cons a t ih => simp [ih]

theorem singletons_enumFrom_flatten {α : Type} (ls : List α) (i : Nat) :
    (((ls.map fun u => [u]).enumFrom i).map fun p => p.2.map fun nd => (nd, p.1)).flatten =
      (ls.enumFrom i).map fun p => (p.2, p.1) := by
  induction ls generalizing i with
  | nil => rfl
  | cons a t ih => simp [List.enumFrom, ih]

/-- A key no kept record uses as a location key is never a `'local'` node. -/
theorem not_mem_locais (rs : List Record) (b : String)
    (h : ∀ r ∈ rs, localTouch r b = false) : b ∉ locais (construir_grafo rs) := by
  intro hb
  rw [locais] at hb
  obtain ⟨p, hp, hpb⟩ := List.mem_map.1 hb
  obtain ⟨hpn, hpt⟩ := List.mem_filter.1 hp
  have hnodup : (((construir_grafo rs).nodes).map Prod.fst).Nodup :=
    nodup_nodes_foldl rs ⟨[], []⟩ (by simp)
  have hlook : alookup (construir_grafo rs).nodes b = some p.2 := by
    rw [← hpb]
    exact alookup_of_mem_nodup _ _ _ hnodup (by simpa using hpn)
  have hchar := lookup_nodes_foldl_decada rs ⟨[], []⟩ b h (Or.inl rfl)
  rw [construir_grafo] at hlook
  rw [hlook] at hchar
  have htipo : p.2.tipo = "local" := by simpa using hpt
  by_cases hany : rs.any fun r => decadaTouch r b
  · rw [if_pos hany] at hchar
    have : p.2 = decadaFresh := (Option.some.injEq .. ▸ hchar)
    rw [this] at htipo
    exact absurd htipo (by simp [decadaFresh])
  · rw [if_neg hany] at hchar
    exact Option.noConfusion hchar

/-- C8 counterexample: the one-record build has a single-node induced Location
subgraph, yet `detectar_comunidades` returns the singleton mapping
`{"X, N": 0}` — modern networkx returns singleton communities on an edgeless
graph — not the claimed empty partition. -/
theorem C8_counterexample :
    locais (construir_grafo [rX1]) = ["X, N"] ∧
    detectar_comunidades (construir_grafo [rX1]) = [("X, N", 0)] ∧
    detectar_comunidades (construir_grafo [rX1]) ≠ [] := by decide

/-- C8 amended: `detectar_comunidades` works on the undirected projection of
the Location-induced subgraph; in every built graph (location keys disjoint
from decade labels) that subgraph has no edges, so the library's edgeless
short-circuit yields singleton communities: the empty induced subgraph gives
the empty mapping, and otherwise every Location node is its own community —
the partition is pairwise disjoint and covers exactly the Location nodes, and
a single-node subgraph yields one singleton community, not an empty
partition. -/
theorem C8_amended_singleton_partition (rs : List Record) (h : labelsDisjoint rs) :
    inducedEdges (construir_grafo rs) = [] ∧
    ((locais (construir_grafo rs)).isEmpty = true →
      detectar_comunidades (construir_grafo rs) = []) ∧
    detectar_comunidades (construir_grafo rs) =
      (locais (construir_grafo rs)).enum.map (fun p => (p.2, p.1)) ∧
    detectar_comunidades_partition (construir_grafo rs) =
      (locais (construir_grafo rs)).map (fun u => [u]) ∧
    List.Pairwise (fun c d => ∀ x ∈ c, x ∉ d)
      (detectar_comunidades_partition (construir_grafo rs)) ∧
    (detectar_comunidades_partition (construir_grafo rs)).flatten =
      locais (construir_grafo rs) := by
  have hind : inducedEdges (construir_grafo rs) = [] := by
    rw [inducedEdges, List.filter_eq_nil_iff]
    intro e he
    obtain ⟨a, b⟩ := e
    have hsome : (alookup (construir_grafo rs).edges (a, b)).isSome :=
      (alookup_isSome_iff_mem _ _).2 he
    rw [lookupEdge_construir rs a b] at hsome
    by_cases hany : rs.any fun r => contribTo r a b
    · obtain ⟨r, hr, hcon⟩ := List.any_eq_true.1 hany
      obtain ⟨hc, _, hdec⟩ := (contribTo_iff r a b).1 hcon
      have hnl : ∀ r' ∈ rs, localTouch r' b = false := by
        intro r' hr'
        cases hl : localTouch r' b with
        | false => rfl
        | true =>
            obtain ⟨hc', hloc'⟩ := (localTouch_iff r' b).1 hl
            exact absurd (hloc'.trans hdec.symm) (h r' hr' r hr hc' hc)
      have hnb := not_mem_locais rs b hnl
      simp [hnb]
    · rw [if_neg hany] at hsome
      exact Bool.noConfusion hsome
  have hpart : detectar_comunidades_partition (construir_grafo rs) =
      (locais (construir_grafo rs)).map (fun u => [u]) := by
    cases he : (locais (construir_grafo rs)).isEmpty with
    | true =>
        rw [detectar_comunidades_partition, if_pos he]
        rw [List.isEmpty_iff] at he
        rw [he]
        rfl
    | false =>
        rw [detectar_comunidades_partition, if_neg (by simp [he])]
        rw [greedy_modularity_communities, hind]
        simp only [List.isEmpty_nil, eq_self_iff_true, if_true]
  have hnodup : (locais (construir_grafo rs)).Nodup := by
    rw [locais]
    exact List.Nodup.sublist (List.Sublist.map Prod.fst (List.filter_sublist _))
      (nodup_nodes_foldl rs ⟨[], []⟩ (by simp))
  refine ⟨hind, ?_, ?_, hpart, ?_, ?_⟩
  · intro he
    rw [detectar_comunidades, if_pos he]
  · cases he : (locais (construir_grafo rs)).isEmpty with
    | true =>
        rw [detectar_comunidades, if_pos he]
        rw [List.isEmpty_iff] at he
        rw [he]
        rfl
    | false =>
        rw [detectar_comunidades, if_neg (by simp [he])]
        rw [greedy_modularity_communities, hind]
        simp only [List.isEmpty_nil, eq_self_iff_true, if_true]
        exact singletons_enumFrom_flatten _ 0
  · rw [hpart, List.pairwise_map]
    refine hnodup.imp ?_
    intro a b hne x hx hxb
    rw [List.mem_singleton] at hx hxb
    exact hne (hx.symm.trans hxb)
  · rw [hpart]
    exact flatten_singletons _

/-- C8 amended, witnessed at the one-record build: the induced subgraph is a
single edgeless node and the mapping is the singleton `{"X, N": 0}`. -/
theorem C8_amended_witness :
    inducedEdges (construir_grafo [rX1]) = [] ∧
    detectar_comunidades (construir_grafo [rX1]) = [("X, N", 0)] := by
  have hall := C8_amended_singleton_partition [rX1] (by unfold labelsDisjoint; decide)
  exact ⟨hall.1, hall.2.2.1.trans (by decide)⟩

/-- C5, witnessed: the spec's end-to-end two-record example. -/
theorem C5_witness :
    top_paises (construir_grafo [rX1, rX2]) 10 =
      [⟨"N", 8, 3, ((3 : Int) : Rat) / ((8 : Int) : Rat)⟩] ∧
    ((3 : Int) : Rat) / ((8 : Int) : Rat) = 0.375 :=
  (C5_top_paises (construir_grafo [rX1, rX2]) 10).2.2.2.2

end WitchTrials
